import Mathlib

set_option maxHeartbeats 1000000

/-!
Verification of the browser-automation orchestration core of the oracle
repository, as a shallow embedding in Lean 4.

Modelling conventions:
- Asynchronous polling loops are embedded as pure functions consuming a
  trace of observations (one list element per remote evaluation, in
  program order); trace exhaustion models the deadline elapsing.
- Filesystem state is explicit (a lock file is absent, corrupt, or a
  valid record); fallible operations take a flag saying whether the
  operation succeeds, and a caught exception is the flag being false.
- Millisecond delays performed by the code are recorded as natural
  numbers in the order they are awaited.
- JavaScript string truthiness (undefined and the empty string are both
  falsy) is modelled explicitly where the source relies on it.
- Process ids are integers (the source also treats non-integer numbers
  as dead; those are outside the Int embedding and noted where relevant).
-/

namespace Oracle

/-! ## Filename normalization (src/unnamed/part_001, lines 210-218)

The source: lower-case, trim, strip one wrapping quote on each side,
collapse whitespace runs to a single space, strip a trailing
whitespace-plus-parenthesised-number suffix, trim again. -/

/-- Whitespace as matched by the source's trim and whitespace regexes
(the inputs of interest are ASCII). -/
def isJsWs (c : Char) : Bool := c == ' ' || c == '\t' || c == '\n' || c == '\r'

def trimChars (l : List Char) : List Char :=
  ((l.dropWhile isJsWs).reverse.dropWhile isJsWs).reverse

def isQuoteChar (c : Char) : Bool := c == '"' || c == '\''

def dropLeadingQuote : List Char → List Char
  | [] => []
  | c :: rest => if isQuoteChar c then rest else c :: rest

/-- The regex removes one leading and one trailing quote character. -/
def stripWrappingQuotes (l : List Char) : List Char :=
  (dropLeadingQuote (dropLeadingQuote l).reverse).reverse

/-- Replace every maximal whitespace run by a single space, as the
source's global whitespace-run replacement does. -/
def collapseWsAux : Bool → List Char → List Char
  | _, [] => []
  | prevWs, c :: rest =>
    if isJsWs c then
      if prevWs then collapseWsAux true rest
      else ' ' :: collapseWsAux true rest
    else c :: collapseWsAux false rest

def collapseWs (l : List Char) : List Char := collapseWsAux false l

/-- Strip a final parenthesised decimal count, together with the
whitespace in front of it, but only when it sits at the very end of the
string (the regex is anchored at the end). Implemented on the reversed
character list. -/
def stripDupSuffix (l : List Char) : List Char :=
  match l.reverse with
  | ')' :: rest =>
    let ds := rest.takeWhile Char.isDigit
    let rest2 := rest.dropWhile Char.isDigit
    if ds.isEmpty then l
    else
      match rest2 with
      | '(' :: rest3 => (rest3.dropWhile isJsWs).reverse
      | _ => l
  | _ => l

/-- The source's normalizeFilename. Char.toLower agrees with the
source's lower-casing on the ASCII inputs of interest. -/
def normalizeFilename (s : String) : String :=
  String.mk
    (trimChars
      (stripDupSuffix
        (collapseWs
          (stripWrappingQuotes
            (trimChars (s.data.map Char.toLower))))))

/-! ## Attachment verification comparison (src/unnamed/part_001, lines 220-269) -/

/-- Expected names that are not visible. -/
def missingFiles (expected visible : List String) : List String :=
  expected.filter (fun e => !(visible.contains e))

/-- Visible names that were not expected. -/
def extraFiles (expected visible : List String) : List String :=
  visible.filter (fun v => !(expected.contains v))

/-- The failure condition of the run orchestrator after visual
verification: some expected name is missing, or an unexpected name is
present and the visible count differs from the expected count. -/
def attachmentVerificationFails (expectedRaw visibleRaw : List String) : Bool :=
  let e := expectedRaw.map normalizeFilename
  let v := visibleRaw.map normalizeFilename
  !(missingFiles e v).isEmpty ||
    (!(extraFiles e v).isEmpty && (v.length != e.length))

/-! ## Visible-attachment sampling (src/src/browser/actions/attachments.ts, lines 259-367)

verifyAttachmentsVisible polls the page; each poll either throws (an
absorbed error, modelled as none) or yields the list of visible
attachments. The outerHTML sample carried by the source is logged only
and does not enter the stability key. -/

structure VAtt where
  filename : String
  selector : String
  outerHTML : String
  deriving DecidableEq

/-- The stability key of one snapshot: filename and selector joined, per
element, exactly as the source builds its snapshot key. -/
def snapshotKey (atts : List VAtt) : List String :=
  atts.map (fun a => a.filename ++ keySep ++ a.selector)
where keySep : String := "::"

/-- Trace semantics of the polling loop of verifyAttachmentsVisible:
one list element per poll (none = the evaluation threw and was
absorbed), with the last snapshot key and the stable-iteration counter
as loop state. Empty snapshots and errors leave the state untouched; a
repeated key increments the counter; a new key resets it to zero; the
snapshot is returned once the counter (after increment) reaches 2, i.e.
on the third consecutive agreeing non-empty sample. Trace exhaustion is
the timeout and returns the empty list. -/
def verifyAttachmentsVisible :
    List (Option (List VAtt)) → Option (List String) → Nat → List VAtt
  | [], _, _ => []
  | none :: rest, k, st => verifyAttachmentsVisible rest k st
  | some atts :: rest, k, st =>
    if atts.isEmpty then verifyAttachmentsVisible rest k st
    else if some (snapshotKey atts) = k then
      (if 2 ≤ st + 1 then atts else verifyAttachmentsVisible rest k (st + 1))
    else
      -- a changed key resets the counter to zero, so the 2-threshold
      -- cannot be met on this poll and the loop always continues
      verifyAttachmentsVisible rest (some (snapshotKey atts)) 0

/-- The non-empty successful samples of a trace, in order. -/
def nonEmptySamples (l : List (Option (List VAtt))) : List (List VAtt) :=
  (l.filterMap id).filter (fun a => !(a.isEmpty))

/-! ## Attachment completion detector (src/src/browser/actions/attachments.ts, lines 93-216)

waitForAttachmentCompletion repeatedly evaluates a probe returning the
send-button state, an uploading flag and the document location. The
model consumes one trace element per evaluation (none = the evaluation
threw and was absorbed) and records every awaited delay in order. The
recovery options are absent (the source's optional parameter left out),
so a mid-wait navigation just waits 1000 ms and rebases the location. -/

inductive PState
  | missing
  | disabled
  | ready
  deriving DecidableEq

structure Probe where
  state : PState
  uploading : Bool
  url : String
  deriving DecidableEq

def readyIdle (p : Probe) : Bool := p.state == PState.ready && !p.uploading

/-- JavaScript truthiness of the lastUrl variable: undefined (none) and
the empty string are falsy. -/
def urlTruthy : Option String → Bool
  | none => false
  | some u => !(u == "")

/-- Every successfully observed probe reported a non-empty location
(window.location.href is never the empty string). -/
def urlsNonEmpty : List (Option Probe) → Bool
  | [] => true
  | none :: rest => urlsNonEmpty rest
  | some p :: rest => !(p.url == "") && urlsNonEmpty rest

/-- The lastUrl state after the initialise-if-unset assignment of one
iteration: a falsy lastUrl is replaced by a truthy observed location. -/
def nextLastUrl (lastUrl : Option String) (v : Probe) : Option String :=
  if !(urlTruthy lastUrl) && !(v.url == "") then some v.url else lastUrl

/-- Trace semantics of waitForAttachmentCompletion. Returns the list of
all awaited delays on success, none on timeout (trace exhaustion). Each
outer iteration: a thrown evaluation waits 500 then 250 ms; a location
change (against a truthy lastUrl) waits 1000 ms and rebases; otherwise
an unset lastUrl is initialised from a truthy observed location, and a
ready-and-idle observation triggers the 500 ms confirm check and then
the 1000 ms final check, both of which must be ready, idle and at the
recorded location for success. -/
def waitForAttachmentCompletion (acc : List Nat) :
    List (Option Probe) → Option String → Option (List Nat)
  | [], _ => none
  | none :: rest, lastUrl =>
    waitForAttachmentCompletion (acc ++ [500, 250]) rest lastUrl
  | some v :: rest, lastUrl =>
    if urlTruthy lastUrl && !(v.url == "") && !(some v.url == lastUrl) then
      waitForAttachmentCompletion (acc ++ [1000]) rest (some v.url)
    else
      if readyIdle v then
        match rest with
        | [] => none
        | none :: rest2 =>
          waitForAttachmentCompletion (acc ++ [500, 500, 250]) rest2 (nextLastUrl lastUrl v)
        | some c :: rest2 =>
          if readyIdle c && (some c.url == nextLastUrl lastUrl v) then
            match rest2 with
            | [] => none
            | none :: rest3 =>
              waitForAttachmentCompletion (acc ++ [500, 1000, 500, 250]) rest3
                (nextLastUrl lastUrl v)
            | some f :: rest3 =>
              if readyIdle f && (some f.url == nextLastUrl lastUrl v) then
                some (acc ++ [500, 1000])
              else
                waitForAttachmentCompletion (acc ++ [500, 1000, 250]) rest3
                  (nextLastUrl lastUrl v)
          else waitForAttachmentCompletion (acc ++ [500, 250]) rest2 (nextLastUrl lastUrl v)
      else waitForAttachmentCompletion (acc ++ [250]) rest (nextLastUrl lastUrl v)

/-! ## Attachment upload retry loop (src/src/browser/actions/attachments.ts, lines 18-91)

uploadAttachmentFile runs up to three locate-assign-confirm attempts.
Each attempt's outcome is one of: the selectors matched nothing; the
confirmation succeeded; the confirmation poll timed out (selection
mismatch); setFileInputFiles or the poll threw a stale-node error; or
some other error was thrown. The model maps attempt numbers to outcomes
and records the between-attempt backoff delays. -/

inductive UploadOutcome
  | locateFail
  | selOk
  | selMismatch
  | staleErr
  | otherErr
  deriving DecidableEq

inductive UploadErr
  | locate
  | mismatch
  | stale
  | other
  deriving DecidableEq

structure UploadRes where
  ok : Bool
  err : Option UploadErr
  attemptsUsed : Nat
  backoffs : List Nat
  deriving DecidableEq

/-- The attempt loop. The list argument holds the remaining attempt
numbers (initially 1, 2, 3), so the source's attempt-below-maximum test
is the list of remaining attempts being non-empty. A locate failure or
a selection mismatch records the error and continues (after the 300ms
times attempt backoff, skipped after the final attempt); a stale-node
error continues likewise but breaks out if this was the final attempt;
any other thrown error breaks out at once, before any backoff; success
breaks out clearing the error. After the loop, a recorded error is
thrown (ok = false). -/
def uploadAttachmentFileGo (outs : Nat → UploadOutcome) :
    List Nat → Nat → Option UploadErr → List Nat → UploadRes
  | [], lastA, lastErr, acc => ⟨lastErr.isNone, lastErr, lastA, acc⟩
  | a :: rest, _, _, acc =>
    match outs a with
    | .selOk => ⟨true, none, a, acc⟩
    | .locateFail =>
      uploadAttachmentFileGo outs rest a (some .locate)
        (if rest.isEmpty then acc else acc ++ [300 * a])
    | .selMismatch =>
      uploadAttachmentFileGo outs rest a (some .mismatch)
        (if rest.isEmpty then acc else acc ++ [300 * a])
    | .staleErr =>
      if rest.isEmpty then ⟨false, some .stale, a, acc⟩
      else uploadAttachmentFileGo outs rest a (some .stale) (acc ++ [300 * a])
    | .otherErr => ⟨false, some .other, a, acc⟩

def uploadAttachmentFile (outs : Nat → UploadOutcome) : UploadRes :=
  uploadAttachmentFileGo outs [1, 2, 3] 0 none []

/-- The outcomes after which the source runs another attempt (when
attempts remain). -/
def retriableOutcome (o : UploadOutcome) : Prop :=
  o = .locateFail ∨ o = .selMismatch ∨ o = .staleErr

/-! ## Cross-process browser lock (src/unnamed/part_000) -/

/-- Contents of the lock path: absent, unreadable or structurally
invalid JSON, or a valid record carrying the owning pid (the creation
time plays no role in any decision). -/
inductive LockFile
  | absent
  | corrupt
  | valid (pid : Int)
  deriving DecidableEq

/-- isProcessAlive: non-positive pids are dead without probing;
otherwise the kill-0 probe decides. (The source also rejects
non-integer numbers, which the Int embedding cannot represent.) -/
def isProcessAlive (probe : Int → Bool) (pid : Int) : Bool :=
  if pid ≤ 0 then false else probe pid

/-- Whether readExistingLock parses the current file and whether the
unlink succeeds during one release call. -/
structure ReleaseEnv where
  readOk : Bool
  rmOk : Bool

structure ReleaseState where
  released : Bool
  file : LockFile
  deriving DecidableEq

/-- One call of the release closure returned by acquireBrowserLock: a
repeat call returns at once; otherwise the released flag is set, the
file is re-read, and it is unlinked only when it parses and records the
caller's own pid; a failing read or unlink is swallowed. The function
is total: release never throws. -/
def releaseBrowserLock (selfPid : Int) (env : ReleaseEnv) (s : ReleaseState) :
    ReleaseState :=
  if s.released then s
  else
    match s.file, env.readOk with
    | .valid p, true =>
      if p = selfPid then
        if env.rmOk then ⟨true, .absent⟩ else ⟨true, .valid p⟩
      else ⟨true, .valid p⟩
    | f, _ => ⟨true, f⟩

inductive AcqOutcome
  | acquired
  | timedOut
  | fuelOut
  deriving DecidableEq

structure AcqRes where
  outcome : AcqOutcome
  file : LockFile
  elapsed : Nat
  deriving DecidableEq

/-- Trace semantics of the acquisition loop of acquireBrowserLock, with
the elapsed milliseconds spent in delays made explicit. Each iteration:
an absent file lets the exclusive create succeed; a corrupt payload
waits 750 ms and retries; a valid record of a dead owner is removed
(when rmOk) and the loop waits 750 ms and retries in either case; a
valid record of a live owner waits 750 ms and retries, after first
failing with the timeout error once the deadline (when positive) has
been exceeded. Fuel bounds the number of iterations. -/
def acquireBrowserLock (selfPid : Int) (timeoutMs : Nat) (alive : Int → Bool)
    (rmOk : Bool) : Nat → LockFile → Nat → AcqRes
  | 0, file, elapsed => ⟨.fuelOut, file, elapsed⟩
  | fuel + 1, file, elapsed =>
    match file with
    | .absent => ⟨.acquired, .valid selfPid, elapsed⟩
    | .corrupt => acquireBrowserLock selfPid timeoutMs alive rmOk fuel .corrupt (elapsed + 750)
    | .valid p =>
      if alive p then
        if 0 < timeoutMs ∧ timeoutMs < elapsed then ⟨.timedOut, .valid p, elapsed⟩
        else acquireBrowserLock selfPid timeoutMs alive rmOk fuel (.valid p) (elapsed + 750)
      else
        acquireBrowserLock selfPid timeoutMs alive rmOk fuel
          (if rmOk then .absent else .valid p) (elapsed + 750)

/-! ## Two contenders racing the lock

Interleaving semantics for two processes running acquireBrowserLock
against the same lock path. Each step is one atomic filesystem
operation or one local check of the source: the create-if-absent write
(part_000 line 85); the read of an existing record together with the
local liveness check of its pid (lines 96-104); and the forced unlink
of the stale branch (line 106), which the source issues without
re-validating the path, so it removes whatever record is there at that
moment — possibly a record another process wrote after this process's
read. c1/c2 are the contenders' positions in the loop: looping (about
to attempt the create), rmPending (read a valid record of a dead pid
and about to issue the unconditional unlink, which may also fail and
be swallowed), holding (the create succeeded and the lock is held).
The release closure's read and own-pid-conditional unlink are taken as
one step; the theorem below uses the relation only to exhibit one
concrete run, and every step of that run is individually atomic in the
source, so the run is a real interleaving of the program. -/

inductive AcqPhase
  | looping
  | rmPending
  | holding
  deriving DecidableEq

structure LockSys where
  file : LockFile
  c1 : AcqPhase
  c2 : AcqPhase
  deriving DecidableEq

inductive LockStep (pid1 pid2 : Int) (alive : Int → Bool) : LockSys → LockSys → Prop
  | create1 (s : LockSys) : s.file = .absent → s.c1 = .looping →
      LockStep pid1 pid2 alive s ⟨.valid pid1, .holding, s.c2⟩
  | create2 (s : LockSys) : s.file = .absent → s.c2 = .looping →
      LockStep pid1 pid2 alive s ⟨.valid pid2, s.c1, .holding⟩
  | readStale1 (s : LockSys) (p : Int) : s.c1 = .looping → s.file = .valid p →
      alive p = false →
      LockStep pid1 pid2 alive s ⟨s.file, .rmPending, s.c2⟩
  | readStale2 (s : LockSys) (p : Int) : s.c2 = .looping → s.file = .valid p →
      alive p = false →
      LockStep pid1 pid2 alive s ⟨s.file, s.c1, .rmPending⟩
  | rm1 (s : LockSys) : s.c1 = .rmPending →
      LockStep pid1 pid2 alive s ⟨.absent, .looping, s.c2⟩
  | rm2 (s : LockSys) : s.c2 = .rmPending →
      LockStep pid1 pid2 alive s ⟨.absent, s.c1, .looping⟩
  | rmFail1 (s : LockSys) : s.c1 = .rmPending →
      LockStep pid1 pid2 alive s ⟨s.file, .looping, s.c2⟩
  | rmFail2 (s : LockSys) : s.c2 = .rmPending →
      LockStep pid1 pid2 alive s ⟨s.file, s.c1, .looping⟩
  | release1 (s : LockSys) : s.c1 = .holding →
      LockStep pid1 pid2 alive s
        ⟨if s.file = .valid pid1 then .absent else s.file, .looping, s.c2⟩
  | release2 (s : LockSys) : s.c2 = .holding →
      LockStep pid1 pid2 alive s
        ⟨if s.file = .valid pid2 then .absent else s.file, s.c1, .looping⟩

/-! ## Session recovery (src/src/browser/sessionRecovery.ts) -/

/-- The conversation-id character class of the source's pattern. -/
def isIdChar (c : Char) : Bool := c.isAlpha || c.isDigit || c == '-'

/-- Try to match the conversation-id pattern at the current position:
a literal c- or g-route segment followed by at least one id character;
the captured group is the maximal id-character run. -/
def matchConvAt : List Char → Option String
  | '/' :: 'c' :: '/' :: tail =>
    if (tail.takeWhile isIdChar).isEmpty then none
    else some (String.mk (tail.takeWhile isIdChar))
  | '/' :: 'g' :: '/' :: tail =>
    if (tail.takeWhile isIdChar).isEmpty then none
    else some (String.mk (tail.takeWhile isIdChar))
  | _ => none

/-- Scan left to right for the first position where the pattern
matches, as the regex engine does. -/
def scanConvId : List Char → Option String
  | [] => none
  | c :: rest =>
    match matchConvAt (c :: rest) with
    | some s => some s
    | none => scanConvId rest

def extractConversationId (url : String) : Option String :=
  scanConvId url.data

/-- The session record persisted by saveSessionState. -/
structure BrowserSession where
  url : String
  timestamp : Nat
  promptText : String
  attachmentPaths : Option (List String)
  conversationId : Option String
  sessionDir : String

/-- What the navigation inside navigateToSavedSession observed: the
location it ended on, or any thrown error (navigation, evaluation or
load-state polling), which the source catches. -/
inductive NavOutcome
  | landed (currentUrl : String)
  | errored

/-- The source's first test, including the JavaScript truthiness guard
on the saved id: a saved empty-string id is falsy and skips the id
comparison. -/
def sessionIdTruthyMatch (session : BrowserSession) (currentConvId : Option String) :
    Bool :=
  match session.conversationId with
  | some c => !(c == "") && (currentConvId == some c)
  | none => false

/-- navigateToSavedSession: true when the saved id is truthy and the id
derived from the landed location equals it, else true when the landed
location equals the saved one exactly, else false; any thrown error
yields false. Total, so recovery never throws. -/
def navigateToSavedSession (session : BrowserSession) (nav : NavOutcome) : Bool :=
  match nav with
  | .errored => false
  | .landed currentUrl =>
    if sessionIdTruthyMatch session (extractConversationId currentUrl) then true
    else if currentUrl == session.url then true
    else false

/-! ## Concrete instances used in the theorems -/

def emptyStr : String := ""

def fileA : String := "My File (1).TXT"

def fileB : String := "my file.txt"

def fileC : String := "  my file.txt  "

def fileD : String := "My File.TXT (1)"

def keyParen : String := "my file (1).txt"

def nameApdf : String := "a.pdf"

def nameBpng : String := "b.png"

def nameCpdf : String := "c.pdf"

def nameReport1 : String := "Report.pdf"

def nameReport2 : String := "report.PDF"

def nameReportL : String := "report.pdf"

def nameOther : String := "other.pdf"

def selPill : String := "pill"

def attA : VAtt := ⟨nameApdf, selPill, emptyStr⟩

def attB : VAtt := ⟨nameBpng, selPill, emptyStr⟩

def sampleA : List VAtt := [attA]

def sampleAB : List VAtt := [attA, attB]

def attX : VAtt := ⟨nameCpdf, selPill, emptyStr⟩

def sampleX : List VAtt := [attX]

/-- A trace where the same non-empty snapshot is seen, an absorbed error
poll intervenes, and the snapshot is seen twice more. -/
def errTrace : List (Option (List VAtt)) := [some sampleX, none, some sampleX, some sampleX]

def steadyTraceV : List (Option (List VAtt)) := [some sampleAB, some sampleAB, some sampleAB]

def urlU : String := "https://chatgpt.com/c/x1"

def probeReady : Probe := ⟨.ready, false, urlU⟩

def probeBusy : Probe := ⟨.ready, true, urlU⟩

/-- ready, then busy, then ready again: the flip inside the debounce
window. -/
def flipTrace : List (Option Probe) := [some probeReady, some probeBusy, some probeReady]

def steadyTrace : List (Option Probe) := [some probeReady, some probeReady, some probeReady]

def locateThenOk : Nat → UploadOutcome := fun a => if a == 1 then .locateFail else .selOk

def mismatchThenOk : Nat → UploadOutcome := fun a => if a == 1 then .selMismatch else .selOk

def staleThenOk : Nat → UploadOutcome := fun a => if a == 1 then .staleErr else .selOk

def allOtherErr : Nat → UploadOutcome := fun _ => .otherErr

def pidOneAlive : Int → Bool := fun p => p == 1

def deadAll : Int → Bool := fun _ => false

def twoAlive : Int → Bool := fun p => p == 1 || p == 2

/-- A start state with a stale record of dead pid 99 on disk and both
contenders about to enter their acquire loops. -/
def staleStart : LockSys := ⟨.valid 99, .looping, .looping⟩

/-- Both contenders holding the lock at once. -/
def doubleHold : LockSys := ⟨.valid 2, .holding, .holding⟩

def convAbc : String := "abc123"

def urlAbc : String := "https://chatgpt.com/c/abc123"

def urlAbcQ : String := "https://chatgpt.com/c/abc123?model=pro"

def promptHi : String := "hello"

def dirTmp : String := "/tmp/oracle"

def sessionAbc : BrowserSession := ⟨urlAbc, 0, promptHi, none, some convAbc, dirTmp⟩

/-! ## Theorems -/

/-- C9 counterexample: the claim says the inputs with the parenthesised
count before the extension, the plain lower-case name, and the padded
name all normalize to the same key; but the duplicate-count regex is
anchored at the end of the string, so the count in the middle of the
first input is kept and its key differs from the plain name's key. -/
theorem C9_normalizeFilename_counterexample :
    normalizeFilename fileA ≠ normalizeFilename fileB := by decide

/-- C9 (amended): normalizeFilename case-folds, trims, strips wrapping
quotes, collapses internal whitespace and strips a duplicate-count
suffix only at the very end of the name; a name with the count placed
at the end, the plain name, and the padded name all map to the same
key, while the claim's input with the count before the extension keeps
its count. -/
theorem C9_normalizeFilename_amended :
    normalizeFilename fileD = normalizeFilename fileB
    ∧ normalizeFilename fileC = normalizeFilename fileB
    ∧ normalizeFilename fileB = fileB
    ∧ normalizeFilename fileA = keyParen := by decide

/-- C7 counterexample: with the claim's sampler trace (one poll showing
only the first file, then the full list twice in a row) the stability
counter only reaches one, so verifyAttachmentsVisible times out with
the empty list and the pipeline's verification condition then fails,
contradicting the claimed success with 2 of 2 matched. -/
theorem C7_verifyAttachmentsVisible_counterexample :
    verifyAttachmentsVisible [some sampleA, some sampleAB, some sampleAB] none 0 = []
    ∧ attachmentVerificationFails [nameApdf, nameBpng] ([] : List String) = true := by
  decide

/-- C7 (amended): verifyAttachmentsVisible trusts a non-empty snapshot
only once the same snapshot was observed on three consecutive polls;
the claim's trace (full list twice in a row after a partial poll) does
not yet satisfy it, while a third consecutive full sample makes the
pipeline succeed and report 2 of 2 matched. -/
theorem C7_verifyAttachmentsVisible_amended :
    verifyAttachmentsVisible [some sampleA, some sampleAB, some sampleAB] none 0 = []
    ∧ verifyAttachmentsVisible [some sampleA, some sampleAB, some sampleAB, some sampleAB]
        none 0 = sampleAB
    ∧ attachmentVerificationFails [nameApdf, nameBpng] (sampleAB.map VAtt.filename) = false
    ∧ (sampleAB.map VAtt.filename).length = 2
    ∧ ([nameApdf, nameBpng] : List String).length = 2 := by decide

/-- C5 counterexample: a selector locate failure and a
registration-confirmation mismatch do not abort uploadAttachmentFile;
the loop records the error, backs off 300 ms and retries, and a
successful second attempt makes the call succeed with no thrown error,
contradicting the claim that every failure other than a stale element
aborts immediately. -/
theorem C5_uploadAttachmentFile_counterexample :
    uploadAttachmentFile locateThenOk = ⟨true, none, 2, [300]⟩
    ∧ uploadAttachmentFile mismatchThenOk = ⟨true, none, 2, [300]⟩ := by decide

/-- C5 (amended): uploadAttachmentFile retries the whole cycle on stale
element errors, locate failures and confirmation mismatches, up to 3
attempts with a 300 ms times attempt backoff between attempts; only
other thrown DevTools errors abort at once (after the first attempt,
with no backoff); a failed run always surfaces the recorded error. -/
theorem C5_uploadAttachmentFile_amended :
    (∀ outs, (uploadAttachmentFile outs).attemptsUsed ≤ 3)
    ∧ (∀ outs, outs 1 = .otherErr →
        uploadAttachmentFile outs = ⟨false, some .other, 1, []⟩)
    ∧ (∀ outs, 2 ≤ (uploadAttachmentFile outs).attemptsUsed → retriableOutcome (outs 1))
    ∧ (∀ outs, (uploadAttachmentFile outs).attemptsUsed = 3 →
        retriableOutcome (outs 1) ∧ retriableOutcome (outs 2)
        ∧ (uploadAttachmentFile outs).backoffs = [300, 600])
    ∧ uploadAttachmentFile staleThenOk = ⟨true, none, 2, [300]⟩
    ∧ (∀ outs, (uploadAttachmentFile outs).ok = false →
        (uploadAttachmentFile outs).err ≠ none) := by
  refine ⟨?_, ?_, ?_, ?_, by decide, ?_⟩
  · intro outs
    rcases h1 : outs 1 <;> rcases h2 : outs 2 <;> rcases h3 : outs 3 <;>
      simp_all [uploadAttachmentFile, uploadAttachmentFileGo]
  · intro outs h1
    simp [uploadAttachmentFile, uploadAttachmentFileGo, h1]
  · intro outs h
    rcases h1 : outs 1 <;>
      simp_all [uploadAttachmentFile, uploadAttachmentFileGo, retriableOutcome]
  · intro outs h
    rcases h1 : outs 1 <;> rcases h2 : outs 2 <;> rcases h3 : outs 3 <;>
      simp_all [uploadAttachmentFile, uploadAttachmentFileGo, retriableOutcome]
  · intro outs h
    rcases h1 : outs 1 <;> rcases h2 : outs 2 <;> rcases h3 : outs 3 <;>
      simp_all [uploadAttachmentFile, uploadAttachmentFileGo]

/-- C5 witness: instantiating the abort clause of the amended claim at
the all-other-errors outcome map. -/
theorem C5_uploadAttachmentFile_witness :
    uploadAttachmentFile allOtherErr = ⟨false, some .other, 1, []⟩ :=
  C5_uploadAttachmentFile_amended.2.1 allOtherErr rfl

/-- C4 counterexample: against a valid record of a dead owner the
acquisition loop removes the stale record but then still awaits the
fixed 750 ms retry backoff before the next create attempt — the claim's
immediate retry would show zero elapsed delay, yet the successful
acquisition is reached with 750 ms of delay. -/
theorem C4_acquireBrowserLock_counterexample :
    acquireBrowserLock 1 1800000 pidOneAlive true 5 (.valid 999) 0 =
      ⟨.acquired, .valid 1, 750⟩
    ∧ (750 : Nat) ≠ 0 := by decide

/-- C4 (amended): against a valid record of a dead owner, acquire
removes the stale record and retries after the fixed 750 ms backoff
(not immediately), succeeding with 750 ms of delay — far below the 30
minute default deadline; if the removal fails the loop performs the
same 750 ms wait and retries; and non-positive recorded pids are dead
without probing. -/
theorem C4_acquireBrowserLock_amended :
    ∀ (selfPid p : Int) (alive : Int → Bool) (t fuel : Nat),
      alive p = false →
      (acquireBrowserLock selfPid t alive true (fuel + 2) (.valid p) 0 =
        ⟨.acquired, .valid selfPid, 750⟩)
      ∧ (∀ e, acquireBrowserLock selfPid t alive false (fuel + 1) (.valid p) e =
          acquireBrowserLock selfPid t alive false fuel (.valid p) (e + 750))
      ∧ (750 : Nat) < 30 * 60000
      ∧ (∀ (probe : Int → Bool) (q : Int), q ≤ 0 → isProcessAlive probe q = false) := by
  intro selfPid p alive t fuel h
  refine ⟨?_, ?_, by norm_num, ?_⟩
  · simp [acquireBrowserLock, h]
  · intro e
    simp [acquireBrowserLock, h]
  · intro probe q hq
    simp [isProcessAlive, hq]

/-- C4 witness: the amended stale-reclaim clause at a concrete dead
owner. -/
theorem C4_acquireBrowserLock_witness :
    acquireBrowserLock 7 0 deadAll true 5 (.valid 42) 0 = ⟨.acquired, .valid 7, 750⟩ :=
  (C4_acquireBrowserLock_amended 7 42 deadAll 0 3 rfl).1

/-- A release call on an already-released state is the identity. -/
theorem release_of_released (selfPid : Int) (e : ReleaseEnv) (s : ReleaseState)
    (h : s.released = true) : releaseBrowserLock selfPid e s = s := by
  simp [releaseBrowserLock, h]

/-- A first release call always sets the released flag. -/
theorem release_sets_flag (selfPid : Int) (e : ReleaseEnv) (s : ReleaseState)
    (h : s.released = false) : (releaseBrowserLock selfPid e s).released = true := by
  rcases s with ⟨rel, f⟩
  rcases e with ⟨ro, rm⟩
  simp only at h
  subst h
  rcases f with _ | _ | p <;> rcases ro <;> rcases rm <;>
    simp [releaseBrowserLock] <;> split <;> simp

/-- C3: the release closure is idempotent (a second call, under any
read or unlink outcome, leaves the state of the first call unchanged),
and it unlinks the lock file exactly when the call is the first one,
the file holds a valid record of the caller's own pid, the re-read
parses and the unlink succeeds — in particular a record of a foreign
pid is never deleted, a successful own release leaves the file absent,
and the function is total, so release never throws. -/
theorem C3_releaseBrowserLock_idempotent :
    (∀ (selfPid : Int) (e1 e2 : ReleaseEnv) (s : ReleaseState),
      releaseBrowserLock selfPid e2 (releaseBrowserLock selfPid e1 s) =
        releaseBrowserLock selfPid e1 s)
    ∧ (∀ (selfPid : Int) (e : ReleaseEnv) (s : ReleaseState),
      (releaseBrowserLock selfPid e s).file =
        if s.released = false ∧ s.file = .valid selfPid
            ∧ e.readOk = true ∧ e.rmOk = true
        then .absent else s.file) := by
  constructor
  · intro selfPid e1 e2 s
    by_cases hr : s.released = true
    · rw [release_of_released selfPid e1 s hr, release_of_released selfPid e2 s hr]
    · exact release_of_released selfPid e2 _
        (release_sets_flag selfPid e1 s (by simpa using hr))
  · intro selfPid e s
    rcases s with ⟨rel, f⟩
    rcases e with ⟨ro, rm⟩
    rcases rel
    · rcases f with _ | _ | p <;> rcases ro <;> rcases rm <;>
        simp [releaseBrowserLock] <;>
        rcases eq_or_ne p selfPid with hp | hp <;> simp [hp]
    · simp [releaseBrowserLock]

/-- C6 counterexample: the claim says verification fails if and only if
the normalized sets differ; but when two expected names normalize to
the same key, a visible list of the same length containing that key and
one unexpected name yields no missing entries and matching counts, so
the pipeline does not fail although the sets differ. -/
theorem C6_attachmentVerification_counterexample :
    attachmentVerificationFails [nameReport1, nameReport2] [nameReportL, nameOther] = false
    ∧ normalizeFilename nameOther ∈ ([nameReportL, nameOther].map normalizeFilename)
    ∧ normalizeFilename nameOther ∉ ([nameReport1, nameReport2].map normalizeFilename) := by
  decide

/-- C6 (amended): after visual verification the pipeline fails,
computing the missing and the unexpected normalized names, exactly when
some expected name is missing or an unexpected name is present with a
visible count differing from the expected count; matching normalized
sets never fail, a failure implies the sets differ, and on the claim's
concrete scenario it fails with the claimed missing and extra lists. -/
theorem C6_attachmentVerification_amended :
    (attachmentVerificationFails [nameApdf, nameBpng] [nameApdf, nameCpdf] = true
      ∧ missingFiles ([nameApdf, nameBpng].map normalizeFilename)
          ([nameApdf, nameCpdf].map normalizeFilename) = [nameBpng]
      ∧ extraFiles ([nameApdf, nameBpng].map normalizeFilename)
          ([nameApdf, nameCpdf].map normalizeFilename) = [nameCpdf])
    ∧ (∀ e v, (∀ x, x ∈ e.map normalizeFilename ↔ x ∈ v.map normalizeFilename) →
        attachmentVerificationFails e v = false)
    ∧ (∀ e v, attachmentVerificationFails e v = true →
        ¬ (∀ x, x ∈ e.map normalizeFilename ↔ x ∈ v.map normalizeFilename)) := by
  have hsets : ∀ e v,
      (∀ x, x ∈ e.map normalizeFilename ↔ x ∈ v.map normalizeFilename) →
      attachmentVerificationFails e v = false := by
    intro e v h
    have hm : missingFiles (e.map normalizeFilename) (v.map normalizeFilename) = [] := by
      simp only [missingFiles, List.filter_eq_nil_iff]
      intro a ha
      simp [List.contains, List.elem_iff, (h a).mp ha]
    have he : extraFiles (e.map normalizeFilename) (v.map normalizeFilename) = [] := by
      simp only [extraFiles, List.filter_eq_nil_iff]
      intro a ha
      simp [List.contains, List.elem_iff, (h a).mpr ha]
    simp [attachmentVerificationFails, hm, he]
  refine ⟨by decide, hsets, ?_⟩
  intro e v hf hmem
  rw [hsets e v hmem] at hf
  exact Bool.false_ne_true hf

/-- C6 witness: the no-failure clause of the amended claim at matching
singleton lists. -/
theorem C6_attachmentVerification_witness :
    attachmentVerificationFails [nameApdf] [nameApdf] = false :=
  C6_attachmentVerification_amended.2.1 [nameApdf] [nameApdf] (fun _ => Iff.rfl)

/-- C1 (code bug): the claimed exclusivity fails on the source. The
read that classifies a record as stale (part_000 lines 96-104) and the
forced unlink that removes it (line 106) are separate operations with
no re-validation in between, so a contender's delayed unlink can
delete the other contender's freshly created live record. Starting
from a stale record of dead pid 99, both contenders read it as stale;
contender 1 unlinks it and re-creates the lock; contender 2's pending
unlink then removes contender 1's live record and contender 2's
create-if-absent succeeds: both contenders hold the lock at once, with
no release in between, although both contender processes are alive and
distinct. -/
theorem C1_lock_exclusivity_bug :
    Relation.ReflTransGen (LockStep 1 2 twoAlive) staleStart doubleHold
    ∧ staleStart.c1 = AcqPhase.looping ∧ staleStart.c2 = AcqPhase.looping
    ∧ staleStart.file = LockFile.valid 99 ∧ twoAlive 99 = false
    ∧ doubleHold.c1 = AcqPhase.holding ∧ doubleHold.c2 = AcqPhase.holding
    ∧ twoAlive 1 = true ∧ twoAlive 2 = true ∧ (1 : Int) ≠ 2 := by
  refine ⟨?_, rfl, rfl, rfl, by decide, rfl, rfl, by decide, by decide, by decide⟩
  have st1 : LockStep 1 2 twoAlive staleStart ⟨.valid 99, .looping, .rmPending⟩ :=
    LockStep.readStale2 staleStart 99 rfl rfl (by decide)
  have st2 : LockStep 1 2 twoAlive ⟨.valid 99, .looping, .rmPending⟩
      ⟨.valid 99, .rmPending, .rmPending⟩ :=
    LockStep.readStale1 _ 99 rfl rfl (by decide)
  have st3 : LockStep 1 2 twoAlive ⟨.valid 99, .rmPending, .rmPending⟩
      ⟨.absent, .looping, .rmPending⟩ :=
    LockStep.rm1 _ rfl
  have st4 : LockStep 1 2 twoAlive ⟨.absent, .looping, .rmPending⟩
      ⟨.valid 1, .holding, .rmPending⟩ :=
    LockStep.create1 _ rfl rfl
  have st5 : LockStep 1 2 twoAlive ⟨.valid 1, .holding, .rmPending⟩
      ⟨.absent, .holding, .looping⟩ :=
    LockStep.rm2 _ rfl
  have st6 : LockStep 1 2 twoAlive ⟨.absent, .holding, .looping⟩ doubleHold :=
    LockStep.create2 _ rfl rfl
  exact Relation.ReflTransGen.head st1 (Relation.ReflTransGen.head st2
    (Relation.ReflTransGen.head st3 (Relation.ReflTransGen.head st4
      (Relation.ReflTransGen.head st5
        (Relation.ReflTransGen.head st6 Relation.ReflTransGen.refl)))))

/-- When the navigation guard did not fire on an observation with a
non-empty location, the recorded location after the iteration is that
observation's location. -/
theorem nextLastUrl_eq_some (lastUrl : Option String) (v : Probe)
    (hv : (v.url == "") = false)
    (hnav : ¬((urlTruthy lastUrl && !(v.url == "") && !(some v.url == lastUrl)) = true)) :
    nextLastUrl lastUrl v = some v.url := by
  unfold nextLastUrl
  cases hb : urlTruthy lastUrl with
  | false => simp [hb, hv]
  | true =>
    rw [hb] at hnav
    simp only [hv, Bool.not_false, Bool.true_and, Bool.and_eq_true_iff, Bool.not_eq_true',
      not_and, Bool.not_eq_false] at hnav
    have heq : some v.url = lastUrl := eq_of_beq hnav
    simp [hb, ← heq]

/-- Success of the completion wait implies three consecutive ready,
idle, same-location observations somewhere in the consumed trace, and
the final two awaited delays are the 500 ms confirm gap and the 1000 ms
final-check gap. -/
theorem waitC_spec :
    ∀ (n : Nat) (obs : List (Option Probe)), obs.length ≤ n →
      ∀ (lastUrl : Option String) (acc ds : List Nat),
      urlsNonEmpty obs = true →
      waitForAttachmentCompletion acc obs lastUrl = some ds →
      (∃ (l1 l2 : List (Option Probe)) (v c f : Probe),
          obs = l1 ++ some v :: some c :: some f :: l2
          ∧ readyIdle v = true ∧ readyIdle c = true ∧ readyIdle f = true
          ∧ v.url = c.url ∧ c.url = f.url)
        ∧ ∃ ds0, ds = ds0 ++ [500, 1000] := by
  intro n
  induction n with
  | zero =>
    intro obs hlen lastUrl acc ds hne h
    have hnil : obs = [] := List.eq_nil_of_length_eq_zero (Nat.le_zero.mp hlen)
    subst hnil
    simp [waitForAttachmentCompletion] at h
  | succ n ih =>
    intro obs hlen lastUrl acc ds hne h
    rcases obs with _ | ⟨o, rest⟩
    · simp [waitForAttachmentCompletion] at h
    have hlenr : rest.length ≤ n := by
      simp only [List.length_cons] at hlen
      omega
    rcases o with _ | v
    · -- absorbed error poll: prepend it and use the tail
      rw [waitForAttachmentCompletion.eq_2] at h
      have hne' : urlsNonEmpty rest = true := hne
      obtain ⟨⟨l1, l2, v', c', f', heq, hv', hc', hf', hu1, hu2⟩, hds⟩ :=
        ih rest hlenr lastUrl (acc ++ [500, 250]) ds hne' h
      exact ⟨⟨none :: l1, l2, v', c', f', by rw [heq]; rfl, hv', hc', hf', hu1, hu2⟩, hds⟩
    · have hvne : (v.url == "") = false := by
        have hb : (!(v.url == "") && urlsNonEmpty rest) = true := hne
        have := (Bool.and_eq_true_iff.mp hb).1
        simpa using this
      have hrest : urlsNonEmpty rest = true := by
        have hb : (!(v.url == "") && urlsNonEmpty rest) = true := hne
        exact (Bool.and_eq_true_iff.mp hb).2
      rcases rest with _ | ⟨o2, rest2⟩
      · -- a single observation left: no success is possible
        simp [waitForAttachmentCompletion] at h
      have hlenr2 : rest2.length ≤ n := by
        simp only [List.length_cons] at hlenr
        omega
      rcases o2 with _ | c
      · -- the observation after v is an absorbed error
        rw [waitForAttachmentCompletion.eq_4] at h
        by_cases hnav : (urlTruthy lastUrl && !(v.url == "") && !(some v.url == lastUrl)) = true
        · rw [if_pos hnav] at h
          obtain ⟨⟨l1, l2, v', c', f', heq, hv', hc', hf', hu1, hu2⟩, hds⟩ :=
            ih (none :: rest2) hlenr (some v.url) (acc ++ [1000]) ds hrest h
          exact ⟨⟨some v :: l1, l2, v', c', f', by rw [heq]; rfl, hv', hc', hf', hu1, hu2⟩, hds⟩
        · rw [if_neg hnav] at h
          by_cases hrv : readyIdle v = true
          · rw [if_pos hrv] at h
            have hrest2 : urlsNonEmpty rest2 = true := hrest
            obtain ⟨⟨l1, l2, v', c', f', heq, hv', hc', hf', hu1, hu2⟩, hds⟩ :=
              ih rest2 hlenr2 (nextLastUrl lastUrl v) (acc ++ [500, 500, 250]) ds hrest2 h
            exact ⟨⟨some v :: none :: l1, l2, v', c', f', by rw [heq]; rfl,
              hv', hc', hf', hu1, hu2⟩, hds⟩
          · rw [if_neg hrv] at h
            obtain ⟨⟨l1, l2, v', c', f', heq, hv', hc', hf', hu1, hu2⟩, hds⟩ :=
              ih (none :: rest2) hlenr (nextLastUrl lastUrl v) (acc ++ [250]) ds hrest h
            exact ⟨⟨some v :: l1, l2, v', c', f', by rw [heq]; rfl,
              hv', hc', hf', hu1, hu2⟩, hds⟩
      · have hcne : (c.url == "") = false := by
          have hb : (!(c.url == "") && urlsNonEmpty rest2) = true := hrest
          have := (Bool.and_eq_true_iff.mp hb).1
          simpa using this
        have hrest2 : urlsNonEmpty rest2 = true := by
          have hb : (!(c.url == "") && urlsNonEmpty rest2) = true := hrest
          exact (Bool.and_eq_true_iff.mp hb).2
        rcases rest2 with _ | ⟨o3, rest3⟩
        · -- only two observations left: no success is possible
          rw [waitForAttachmentCompletion.eq_5] at h
          by_cases hnav : (urlTruthy lastUrl && !(v.url == "") && !(some v.url == lastUrl)) = true
          · rw [if_pos hnav] at h
            obtain ⟨⟨l1, l2, v', c', f', heq, hv', hc', hf', hu1, hu2⟩, hds⟩ :=
              ih [some c] hlenr (some v.url) (acc ++ [1000]) ds hrest h
            exact ⟨⟨some v :: l1, l2, v', c', f', by rw [heq]; rfl,
              hv', hc', hf', hu1, hu2⟩, hds⟩
          · rw [if_neg hnav] at h
            by_cases hrv : readyIdle v = true
            · rw [if_pos hrv] at h
              by_cases hcc : (readyIdle c && (some c.url == nextLastUrl lastUrl v)) = true
              · rw [if_pos hcc] at h
                exact absurd h (by simp)
              · rw [if_neg hcc] at h
                simp [waitForAttachmentCompletion] at h
            · rw [if_neg hrv] at h
              obtain ⟨⟨l1, l2, v', c', f', heq, hv', hc', hf', hu1, hu2⟩, hds⟩ :=
                ih [some c] hlenr (nextLastUrl lastUrl v) (acc ++ [250]) ds hrest h
              exact ⟨⟨some v :: l1, l2, v', c', f', by rw [heq]; rfl,
                hv', hc', hf', hu1, hu2⟩, hds⟩
        have hlenr3 : rest3.length ≤ n := by
          simp only [List.length_cons] at hlenr
          omega
        rcases o3 with _ | f
        · -- the observation after the confirm check is an absorbed error
          rw [waitForAttachmentCompletion.eq_6] at h
          by_cases hnav : (urlTruthy lastUrl && !(v.url == "") && !(some v.url == lastUrl)) = true
          · rw [if_pos hnav] at h
            obtain ⟨⟨l1, l2, v', c', f', heq, hv', hc', hf', hu1, hu2⟩, hds⟩ :=
              ih (some c :: none :: rest3) hlenr (some v.url) (acc ++ [1000]) ds hrest h
            exact ⟨⟨some v :: l1, l2, v', c', f', by rw [heq]; rfl,
              hv', hc', hf', hu1, hu2⟩, hds⟩
          · rw [if_neg hnav] at h
            by_cases hrv : readyIdle v = true
            · rw [if_pos hrv] at h
              by_cases hcc : (readyIdle c && (some c.url == nextLastUrl lastUrl v)) = true
              · rw [if_pos hcc] at h
                have hrest3 : urlsNonEmpty rest3 = true := hrest2
                obtain ⟨⟨l1, l2, v', c', f', heq, hv', hc', hf', hu1, hu2⟩, hds⟩ :=
                  ih rest3 hlenr3 (nextLastUrl lastUrl v) (acc ++ [500, 1000, 500, 250]) ds
                    hrest3 h
                exact ⟨⟨some v :: some c :: none :: l1, l2, v', c', f', by rw [heq]; rfl,
                  hv', hc', hf', hu1, hu2⟩, hds⟩
              · rw [if_neg hcc] at h
                obtain ⟨⟨l1, l2, v', c', f', heq, hv', hc', hf', hu1, hu2⟩, hds⟩ :=
                  ih (none :: rest3) hlenr2 (nextLastUrl lastUrl v) (acc ++ [500, 250]) ds
                    hrest2 h
                exact ⟨⟨some v :: some c :: l1, l2, v', c', f', by rw [heq]; rfl,
                  hv', hc', hf', hu1, hu2⟩, hds⟩
            · rw [if_neg hrv] at h
              obtain ⟨⟨l1, l2, v', c', f', heq, hv', hc', hf', hu1, hu2⟩, hds⟩ :=
                ih (some c :: none :: rest3) hlenr (nextLastUrl lastUrl v) (acc ++ [250]) ds
                  hrest h
              exact ⟨⟨some v :: l1, l2, v', c', f', by rw [heq]; rfl,
                hv', hc', hf', hu1, hu2⟩, hds⟩
        · -- three successful observations at the head
          rw [waitForAttachmentCompletion.eq_7] at h
          by_cases hnav : (urlTruthy lastUrl && !(v.url == "") && !(some v.url == lastUrl)) = true
          · rw [if_pos hnav] at h
            obtain ⟨⟨l1, l2, v', c', f', heq, hv', hc', hf', hu1, hu2⟩, hds⟩ :=
              ih (some c :: some f :: rest3) hlenr (some v.url) (acc ++ [1000]) ds hrest h
            exact ⟨⟨some v :: l1, l2, v', c', f', by rw [heq]; rfl,
              hv', hc', hf', hu1, hu2⟩, hds⟩
          · rw [if_neg hnav] at h
            have hlu : nextLastUrl lastUrl v = some v.url :=
              nextLastUrl_eq_some lastUrl v hvne hnav
            by_cases hrv : readyIdle v = true
            · rw [if_pos hrv] at h
              by_cases hcc : (readyIdle c && (some c.url == nextLastUrl lastUrl v)) = true
              · rw [if_pos hcc] at h
                by_cases hff : (readyIdle f && (some f.url == nextLastUrl lastUrl v)) = true
                · rw [if_pos hff] at h
                  have hds : ds = acc ++ [500, 1000] := (Option.some.inj h).symm
                  obtain ⟨hcr, hcu⟩ := Bool.and_eq_true_iff.mp hcc
                  obtain ⟨hfr, hfu⟩ := Bool.and_eq_true_iff.mp hff
                  have hcu' : some c.url = some v.url := (eq_of_beq hcu).trans hlu
                  have hfu' : some f.url = some v.url := (eq_of_beq hfu).trans hlu
                  have hvc : v.url = c.url := (Option.some.inj hcu').symm
                  have hcf : c.url = f.url :=
                    (Option.some.inj hcu').trans (Option.some.inj hfu').symm
                  exact ⟨⟨[], rest3, v, c, f, rfl, hrv, hcr, hfr, hvc, hcf⟩, ⟨acc, hds⟩⟩
                · rw [if_neg hff] at h
                  have hrest3 : urlsNonEmpty rest3 = true :=
                    (Bool.and_eq_true_iff.mp hrest2).2
                  obtain ⟨⟨l1, l2, v', c', f', heq, hv', hc', hf', hu1, hu2⟩, hds⟩ :=
                    ih rest3 hlenr3 (nextLastUrl lastUrl v) (acc ++ [500, 1000, 250]) ds
                      hrest3 h
                  exact ⟨⟨some v :: some c :: some f :: l1, l2, v', c', f',
                    by rw [heq]; rfl, hv', hc', hf', hu1, hu2⟩, hds⟩
              · rw [if_neg hcc] at h
                obtain ⟨⟨l1, l2, v', c', f', heq, hv', hc', hf', hu1, hu2⟩, hds⟩ :=
                  ih (some f :: rest3) hlenr2 (nextLastUrl lastUrl v) (acc ++ [500, 250]) ds
                    hrest2 h
                exact ⟨⟨some v :: some c :: l1, l2, v', c', f', by rw [heq]; rfl,
                  hv', hc', hf', hu1, hu2⟩, hds⟩
            · rw [if_neg hrv] at h
              obtain ⟨⟨l1, l2, v', c', f', heq, hv', hc', hf', hu1, hu2⟩, hds⟩ :=
                ih (some c :: some f :: rest3) hlenr (nextLastUrl lastUrl v) (acc ++ [250]) ds
                  hrest h
              exact ⟨⟨some v :: l1, l2, v', c', f', by rw [heq]; rfl,
                hv', hc', hf', hu1, hu2⟩, hds⟩

/-- C2: waitForAttachmentCompletion declares success only if the same
ready, not-uploading, same-location result was observed on three
successive checks, with the awaited gaps before the second and third
check being 500 ms and then 1000 ms (the last two recorded delays of a
successful wait); in particular the ready-busy-ready flip trace does
not satisfy it on that cycle. The trace hypothesis states that every
observed location is non-empty, as window.location.href always is. -/
theorem C2_waitForAttachmentCompletion_debounce :
    (∀ (obs : List (Option Probe)) (lastUrl : Option String) (acc ds : List Nat),
      urlsNonEmpty obs = true →
      waitForAttachmentCompletion acc obs lastUrl = some ds →
      (∃ (l1 l2 : List (Option Probe)) (v c f : Probe),
          obs = l1 ++ some v :: some c :: some f :: l2
          ∧ readyIdle v = true ∧ readyIdle c = true ∧ readyIdle f = true
          ∧ v.url = c.url ∧ c.url = f.url)
        ∧ ∃ ds0, ds = ds0 ++ [500, 1000])
    ∧ waitForAttachmentCompletion [] flipTrace none = none :=
  ⟨fun obs lastUrl acc ds h1 h2 => waitC_spec obs.length obs le_rfl lastUrl acc ds h1 h2,
    by decide⟩

/-- C2 witness: the debounce theorem applied to the steady trace of
three identical ready observations, which succeeds with final delays
500 and 1000 ms. -/
theorem C2_waitForAttachmentCompletion_witness :
    (∃ (l1 l2 : List (Option Probe)) (v c f : Probe),
        steadyTrace = l1 ++ some v :: some c :: some f :: l2
        ∧ readyIdle v = true ∧ readyIdle c = true ∧ readyIdle f = true
        ∧ v.url = c.url ∧ c.url = f.url)
      ∧ ∃ ds0, [500, 1000] = ds0 ++ [500, 1000] :=
  C2_waitForAttachmentCompletion_debounce.1 steadyTrace none [] [500, 1000]
    (by decide) (by decide)


/-- nonEmptySamples ignores error polls. -/
theorem nonEmptySamples_none (rest : List (Option (List VAtt))) :
    nonEmptySamples (none :: rest) = nonEmptySamples rest := rfl

/-- nonEmptySamples ignores empty snapshots. -/
theorem nonEmptySamples_some_empty (atts : List VAtt) (rest : List (Option (List VAtt)))
    (h : atts.isEmpty = true) :
    nonEmptySamples (some atts :: rest) = nonEmptySamples rest := by
  simp [nonEmptySamples, List.filterMap_cons, List.filter_cons, h]

/-- nonEmptySamples keeps non-empty snapshots. -/
theorem nonEmptySamples_some_ne (atts : List VAtt) (rest : List (Option (List VAtt)))
    (h : atts.isEmpty = false) :
    nonEmptySamples (some atts :: rest) = atts :: nonEmptySamples rest := by
  simp [nonEmptySamples, List.filterMap_cons, List.filter_cons, h]

/-- A non-empty return of the sampling loop was observed three times in
a row among the non-empty samples, or fewer when the incoming loop
state already recorded one or two agreeing observations of its key. -/
theorem verify_spec :
    ∀ (n : Nat) (samples : List (Option (List VAtt))), samples.length ≤ n →
      ∀ (k : Option (List String)) (st : Nat) (r : List VAtt),
      verifyAttachmentsVisible samples k st = r → r ≠ [] →
      (∃ (l1 : List (List VAtt)) (a b : List VAtt) (l2 : List (List VAtt)),
          nonEmptySamples samples = l1 ++ a :: b :: r :: l2
          ∧ snapshotKey a = snapshotKey b ∧ snapshotKey b = snapshotKey r)
      ∨ (∃ (b : List VAtt) (l2 : List (List VAtt)),
          nonEmptySamples samples = b :: r :: l2 ∧ snapshotKey b = snapshotKey r
          ∧ k = some (snapshotKey r))
      ∨ (1 ≤ st ∧ ∃ (l2 : List (List VAtt)),
          nonEmptySamples samples = r :: l2 ∧ k = some (snapshotKey r)) := by
  intro n
  induction n with
  | zero =>
    intro samples hlen k st r h hr
    have hnil : samples = [] := List.eq_nil_of_length_eq_zero (Nat.le_zero.mp hlen)
    subst hnil
    simp [verifyAttachmentsVisible] at h
    exact absurd h hr
  | succ n ih =>
    intro samples hlen k st r h hr
    rcases samples with _ | ⟨o, rest⟩
    · simp [verifyAttachmentsVisible] at h
      exact absurd h hr
    have hlenr : rest.length ≤ n := by
      simp only [List.length_cons] at hlen
      omega
    rcases o with _ | atts
    · simp only [verifyAttachmentsVisible] at h
      have hIH := ih rest hlenr k st r h hr
      rw [nonEmptySamples_none]
      exact hIH
    · simp only [verifyAttachmentsVisible] at h
      by_cases hemp : atts.isEmpty = true
      · rw [if_pos hemp] at h
        have hIH := ih rest hlenr k st r h hr
        rw [nonEmptySamples_some_empty atts rest hemp]
        exact hIH
      · have hemp' : atts.isEmpty = false := Bool.eq_false_iff.mpr hemp
        rw [if_neg hemp] at h
        by_cases hk : some (snapshotKey atts) = k
        · rw [if_pos hk] at h
          by_cases hst : 2 ≤ st + 1
          · rw [if_pos hst] at h
            subst h
            right; right
            constructor
            · omega
            · refine ⟨nonEmptySamples rest, ?_, hk.symm⟩
              rw [nonEmptySamples_some_ne atts rest hemp']
          · rw [if_neg hst] at h
            have hIH := ih rest hlenr k (st + 1) r h hr
            rcases hIH with ⟨l1, a, b, l2, he, k1, k2⟩ | ⟨b, l2, he, kb, hkr⟩ |
              ⟨hst1, l2, he, hkr⟩
            · left
              exact ⟨atts :: l1, a, b, l2,
                by rw [nonEmptySamples_some_ne atts rest hemp', he]; try rfl, k1, k2⟩
            · left
              have hka : snapshotKey atts = snapshotKey r := Option.some.inj (hk.trans hkr)
              exact ⟨[], atts, b, l2,
                by rw [nonEmptySamples_some_ne atts rest hemp', he]; try rfl,
                hka.trans kb.symm, kb⟩
            · right; left
              have hka : snapshotKey atts = snapshotKey r := Option.some.inj (hk.trans hkr)
              exact ⟨atts, l2,
                by rw [nonEmptySamples_some_ne atts rest hemp', he]; try rfl, hka, hkr⟩
        · rw [if_neg hk] at h
          have hIH := ih rest hlenr (some (snapshotKey atts)) 0 r h hr
          rcases hIH with ⟨l1, a, b, l2, he, k1, k2⟩ | ⟨b, l2, he, kb, hkr⟩ |
            ⟨hst1, l2, he, hkr⟩
          · left
            exact ⟨atts :: l1, a, b, l2,
              by rw [nonEmptySamples_some_ne atts rest hemp', he]; try rfl, k1, k2⟩
          · left
            have hka : snapshotKey atts = snapshotKey r := Option.some.inj hkr
            exact ⟨[], atts, b, l2,
              by rw [nonEmptySamples_some_ne atts rest hemp', he]; try rfl,
              hka.trans kb.symm, kb⟩
          · exact absurd hst1 (by omega)

/-- C10 counterexample: the loop's stability counter is neither reset
nor advanced by an absorbed error poll, so the trace snapshot, error,
snapshot, snapshot returns the non-empty snapshot although no three
consecutive polls of the trace observed it. -/
theorem C10_verifyAttachmentsVisible_counterexample :
    verifyAttachmentsVisible errTrace none 0 = sampleX
    ∧ sampleX ≠ []
    ∧ ¬ ∃ (l1 l2 : List (Option (List VAtt))),
        errTrace = l1 ++ some sampleX :: some sampleX :: some sampleX :: l2 := by
  refine ⟨by decide, by decide, ?_⟩
  rintro ⟨l1, l2, h⟩
  rcases l1 with _ | ⟨x, l1⟩
  · simp [errTrace] at h
  · rcases l1 with _ | ⟨y, l1⟩
    · simp [errTrace] at h
    · have hlen := congrArg List.length h
      simp [errTrace] at hlen
      omega

/-- C10 (amended): verifyAttachmentsVisible never throws — an error
poll is absorbed and leaves the loop state untouched; the empty list is
returned only by exhausting the trace (the timeout); and a non-empty
result was observed with the same snapshot key on three consecutive
non-empty samples, where error and empty polls in between neither reset
nor advance the stability count. -/
theorem C10_verifyAttachmentsVisible_amended :
    (∀ (rest : List (Option (List VAtt))) (k : Option (List String)) (st : Nat),
      verifyAttachmentsVisible (none :: rest) k st = verifyAttachmentsVisible rest k st)
    ∧ (∀ (k : Option (List String)) (st : Nat), verifyAttachmentsVisible [] k st = [])
    ∧ (∀ (samples : List (Option (List VAtt))) (r : List VAtt),
        verifyAttachmentsVisible samples none 0 = r → r ≠ [] →
        ∃ (l1 : List (List VAtt)) (a b : List VAtt) (l2 : List (List VAtt)),
          nonEmptySamples samples = l1 ++ a :: b :: r :: l2
          ∧ snapshotKey a = snapshotKey b ∧ snapshotKey b = snapshotKey r) := by
  refine ⟨fun rest k st => rfl, fun k st => rfl, ?_⟩
  intro samples r h hr
  have hIH := verify_spec samples.length samples le_rfl none 0 r h hr
  rcases hIH with hD | ⟨b, l2, he, kb, hkr⟩ | ⟨hst1, l2, he, hkr⟩
  · exact hD
  · exact absurd hkr (by simp)
  · exact absurd hkr (by simp)

/-- C10 witness: the three-consecutive-samples clause applied to the
steady trace of three identical non-empty samples. -/
theorem C10_verifyAttachmentsVisible_witness :
    ∃ (l1 : List (List VAtt)) (a b : List VAtt) (l2 : List (List VAtt)),
      nonEmptySamples steadyTraceV = l1 ++ a :: b :: sampleAB :: l2
      ∧ snapshotKey a = snapshotKey b ∧ snapshotKey b = snapshotKey sampleAB :=
  C10_verifyAttachmentsVisible_amended.2.2 steadyTraceV sampleAB (by decide) (by decide)

/-- A conversation id matched at some position is non-empty. -/
theorem matchConvAt_ne_empty (l : List Char) (s : String) (h : matchConvAt l = some s) :
    s ≠ "" := by
  unfold matchConvAt at h
  split at h
  · split at h
    · exact absurd h (by simp)
    · next hne =>
      intro hs
      apply hne
      have heq := Option.some.inj h
      rw [hs] at heq
      have h2 := congrArg (fun t : String => t.data.isEmpty) heq
      exact h2
  · split at h
    · exact absurd h (by simp)
    · next hne =>
      intro hs
      apply hne
      have heq := Option.some.inj h
      rw [hs] at heq
      have h2 := congrArg (fun t : String => t.data.isEmpty) heq
      exact h2
  · exact absurd h (by simp)


/-- The scanner never yields the empty string. -/
theorem scanConvId_ne_empty : ∀ (l : List Char) (s : String),
    scanConvId l = some s → s ≠ "" := by
  intro l
  induction l with
  | nil =>
    intro s h
    simp [scanConvId] at h
  | cons c rest ih =>
    intro s h
    simp only [scanConvId] at h
    rcases hm : matchConvAt (c :: rest) with _ | t
    · rw [hm] at h
      exact ih s h
    · rw [hm] at h
      have ht : t = s := Option.some.inj h
      rw [← ht]
      exact matchConvAt_ne_empty (c :: rest) t hm

/-- C8: for a session whose saved identifier is derived from its saved
location — exactly what saveSessionState records — recovery returns
true precisely when the navigation landed somewhere and either the
derived identifier of the landed location equals the saved one (the
raw locations may differ), or no identifier was captured and the landed
location equals the saved one exactly; in every other case, including a
thrown error during navigation, it returns false, and it never throws
(the model is a total function). -/
theorem C8_navigateToSavedSession_recovery :
    ∀ (session : BrowserSession) (nav : NavOutcome),
      session.conversationId = extractConversationId session.url →
      (navigateToSavedSession session nav = true ↔
        ∃ u, nav = .landed u ∧
          ((∃ c, session.conversationId = some c ∧ extractConversationId u = some c)
            ∨ (session.conversationId = none ∧ u = session.url))) := by
  intro session nav hwf
  cases nav with
  | errored =>
    constructor
    · intro h
      exact absurd h (by simp [navigateToSavedSession])
    · rintro ⟨u, hu, _⟩
      cases hu
  | landed u =>
    simp only [navigateToSavedSession]
    constructor
    · intro h
      by_cases h1 : sessionIdTruthyMatch session (extractConversationId u) = true
      · refine ⟨u, rfl, Or.inl ?_⟩
        unfold sessionIdTruthyMatch at h1
        rcases hc : session.conversationId with _ | c
        · rw [hc] at h1
          simp at h1
        · rw [hc] at h1
          obtain ⟨hc0, hmatch⟩ := Bool.and_eq_true_iff.mp h1
          exact ⟨c, rfl, eq_of_beq hmatch⟩
      · rw [if_neg h1] at h
        by_cases h2 : (u == session.url) = true
        · have hu : u = session.url := eq_of_beq h2
          refine ⟨u, rfl, ?_⟩
          rcases hc : session.conversationId with _ | c
          · exact Or.inr ⟨rfl, hu⟩
          · refine Or.inl ⟨c, rfl, ?_⟩
            rw [hu]
            exact hwf.symm.trans hc
        · rw [if_neg h2] at h
          exact absurd h (by simp)
    · rintro ⟨u', hu', hdisj⟩
      have huu : u' = u := by
        cases hu'
        rfl
      subst huu
      rcases hdisj with ⟨c, hc, hm⟩ | ⟨hc, hu⟩
      · have hext : extractConversationId session.url = some c := hwf ▸ hc
        have hcne : c ≠ "" := scanConvId_ne_empty session.url.data c hext
        have hmatch : sessionIdTruthyMatch session (extractConversationId u') = true := by
          unfold sessionIdTruthyMatch
          rw [hc]
          simp [hm, hcne]
        rw [if_pos hmatch]
      · by_cases h1 : sessionIdTruthyMatch session (extractConversationId u') = true
        · rw [if_pos h1]
        · rw [if_neg h1, if_pos (show (u' == session.url) = true by simp [hu])]

/-- C8 witness: recovery of a session saved with conversation id
abc123 succeeds when the landed location carries the same id with an
added query parameter, although the raw locations differ. -/
theorem C8_navigateToSavedSession_witness :
    navigateToSavedSession sessionAbc (.landed urlAbcQ) = true := by
  have h := C8_navigateToSavedSession_recovery sessionAbc (.landed urlAbcQ) (by decide)
  exact h.mpr ⟨urlAbcQ, rfl, Or.inl ⟨convAbc, rfl, by decide⟩⟩

end Oracle

